import Mathlib

/-!
# BBMTLib/tss/cipher.go — the ECIES convenience layer

A shallow embedding of `GenerateKeyPair`, `EciesEncrypt` and `EciesDecrypt`
together with the Go standard-library routines they call
(`encoding/base64`, `encoding/json`, `fmt.Errorf`), followed by the properties
of the three entry points.

Go values are represented as follows.

* a Go `string` and a Go `[]byte` are both finite byte sequences; the
  conversions `[]byte(s)` and `string(b)` copy the bytes unchanged, so both
  types are `List Byte` and the conversions are the identity;
* a Go `error` is a value of `GoError`; `nil` is `none`;
* a function returning `(string, error)` returns a `Ret`, which in addition
  records the callees that were invoked, in program order;
* the third-party package `github.com/ecies/go/v2` is a parameter `E : Ecies`;
  randomness drawn by the package is an explicit argument.
-/

namespace Tss

/-! ## Bytes, strings, errors -/

/-- A Go `byte`. -/
abbrev Byte := Fin 256

/-- A Go `string` (equally a `[]byte`): a finite sequence of bytes. -/
abbrev GoString := List Byte

/-- The bytes of an ASCII literal of the source. -/
def ascii (s : String) : GoString :=
  s.toList.map (fun c => Fin.ofNat c.toNat)

/-- The Go conversion `byte(x)` of an unsigned integer: the low eight bits. -/
def toByte (x : Nat) : Byte := Fin.ofNat (x % 256)

/-- Go error values that occur in `cipher.go`.

* `errorString s` is an error whose text is fixed (`errors.New(s)`, or any
  error of the collaborator that carries no cause);
* `corruptInputError n` is `base64.CorruptInputError(n)`;
* `wrapError msg err` is the `*fmt.wrapError` built by `fmt.Errorf` for a
  format with one `%w` verb: `msg` is the formatted text and `err` the
  wrapped cause returned by `Unwrap`. -/
inductive GoError where
  | errorString (s : GoString)
  | corruptInputError (n : Nat)
  | wrapError (msg : GoString) (err : GoError)
  deriving DecidableEq, Repr

deriving instance DecidableEq for Except

/-- The method `Error()` of an error value. -/
def GoError.Error : GoError → GoString
  | .errorString s => s
  | .corruptInputError n => ascii "illegal base64 data at input byte " ++ ascii (Nat.repr n)
  | .wrapError msg _ => msg

/-- The method `Unwrap()`: the cause of a `wrapError`, `nil` otherwise. -/
def GoError.Unwrap : GoError → Option GoError
  | .wrapError _ err => some err
  | _ => none

/-- The call `fmt.Errorf(text + "%w", err)`: the message is `text` followed
by `err.Error()`, and the result wraps `err`. -/
def Errorf (text : GoString) (err : GoError) : GoError :=
  .wrapError (text ++ err.Error) err

/-! ## `encoding/base64`, `StdEncoding` -/

namespace base64

/-- The alphabet `encodeStd` of the standard encoding. -/
def encodeStd : GoString :=
  ascii "ABCDEFGHIJKLMNOPQRSTUVWXYZabcdefghijklmnopqrstuvwxyz0123456789+/"

/-- The padding character `StdPadding`, `'='`. -/
def padChar : Byte := 61

/-- The table `enc.encode`: the character of a six-bit value. -/
def encode (i : Nat) : Byte := encodeStd.getD i 0

/-- The table `enc.decodeMap`: the six-bit value of an alphabet character,
`0xff` for every other byte. -/
def decodeMap (c : Byte) : Nat :=
  if encodeStd.indexOf c < 64 then encodeStd.indexOf c else 0xff

/-- The method `Encode` of `StdEncoding`: three source bytes become four
characters; a final block of one or two bytes is padded with `'='`. -/
def Encode : List Byte → GoString
  | [] => []
  | [a] =>
    let val := a.val <<< 16
    [encode (val >>> 18 &&& 0x3F), encode (val >>> 12 &&& 0x3F), padChar, padChar]
  | [a, b] =>
    let val := a.val <<< 16 ||| b.val <<< 8
    [encode (val >>> 18 &&& 0x3F), encode (val >>> 12 &&& 0x3F),
      encode (val >>> 6 &&& 0x3F), padChar]
  | a :: b :: c :: rest =>
    let val := a.val <<< 16 ||| b.val <<< 8 ||| c.val
    encode (val >>> 18 &&& 0x3F) :: encode (val >>> 12 &&& 0x3F) ::
      encode (val >>> 6 &&& 0x3F) :: encode (val &&& 0x3F) :: Encode rest

/-- The method `EncodeToString`. -/
def EncodeToString (src : List Byte) : GoString := Encode src

/-- The loops `for si < len(src) && (src[si] == '\n' || src[si] == '\r') { si++ }`
of `decodeQuantum`: the input left and the new index. -/
def skipNewlines : GoString → Nat → GoString × Nat
  | [], si => ([], si)
  | c :: rest, si =>
    if c = 10 ∨ c = 13 then skipNewlines rest (si + 1) else (c :: rest, si)

/-- The final conversion of `decodeQuantum`: the six-bit values collected in
`dbuf` (missing ones are zero) are packed into 24 bits and the first
`dlen - 1` of the three bytes are written. -/
def quantumBytes (dbuf : List Nat) (dlen : Nat) : List Byte :=
  let val := dbuf.getD 0 0 <<< 18 ||| dbuf.getD 1 0 <<< 12 ||| dbuf.getD 2 0 <<< 6 ||| dbuf.getD 3 0
  [toByte (val >>> 16), toByte (val >>> 8), toByte (val >>> 0)].take (dlen - 1)

/-- The method `Decode` of `StdEncoding` (padded, not strict), with
`decodeQuantum` unfolded into its loop. `srcLen` is `len(src)`, `dbuf` holds
the six-bit values read so far in the current quantum (`j` is its length),
`si` is the index of the next input byte. The result is the bytes written
and the error. The eight- and four-character fast paths of the library decode
the same quanta and are not represented separately. -/
def decodeLoop (srcLen : Nat) : List Nat → GoString → Nat → List Byte × Option GoError
  | dbuf, [], si =>
    if dbuf.length = 0 then ([], none)
    else ([], some (.corruptInputError (si - dbuf.length)))
  | dbuf, c :: rest, si =>
    let si := si + 1
    if decodeMap c ≠ 0xff then
      if dbuf.length = 3 then
        let r := decodeLoop srcLen [] rest si
        (quantumBytes (dbuf ++ [decodeMap c]) 4 ++ r.1, r.2)
      else decodeLoop srcLen (dbuf ++ [decodeMap c]) rest si
    else if c = 10 ∨ c = 13 then decodeLoop srcLen dbuf rest si
    else if c ≠ padChar then ([], some (.corruptInputError (si - 1)))
    else if dbuf.length < 2 then ([], some (.corruptInputError (si - 1)))
    else if dbuf.length = 2 then
      match skipNewlines rest si with
      | ([], _) => ([], some (.corruptInputError srcLen))
      | (c2 :: rest2, si2) =>
        if c2 ≠ padChar then ([], some (.corruptInputError (si2 - 1)))
        else
          match skipNewlines rest2 (si2 + 1) with
          | ([], _) => (quantumBytes dbuf 2, none)
          | (_ :: _, si3) => (quantumBytes dbuf 2, some (.corruptInputError si3))
    else
      match skipNewlines rest si with
      | ([], _) => (quantumBytes dbuf 3, none)
      | (_ :: _, si3) => (quantumBytes dbuf 3, some (.corruptInputError si3))

/-- The method `DecodeString`: the decoded prefix and the error. -/
def DecodeString (s : GoString) : List Byte × Option GoError :=
  decodeLoop s.length [] s 0

end base64

/-! ## `encoding/json`: `Marshal` of a `map[string]string` -/

namespace json

/-- The digits `hex` used for `\u00XX` escapes. -/
def hex (i : Nat) : Byte := (ascii "0123456789abcdef").getD i 0

/-- The table `htmlSafeSet`: the ASCII bytes that `Marshal` copies unchanged
(printable ASCII and DEL, except the quote, the backslash, and `&`, `<`, `>`). -/
def htmlSafeSet (b : Byte) : Bool :=
  decide (0x20 ≤ b.val ∧ b.val < 0x80 ∧ b.val ≠ 0x22 ∧ b.val ≠ 0x26 ∧ b.val ≠ 0x3C ∧
    b.val ≠ 0x3E ∧ b.val ≠ 0x5C)

/-- The escape that `appendString` writes for an ASCII byte outside
`htmlSafeSet` (the short forms `\b` and `\f` are those of Go 1.22 and later;
earlier releases write `\u0008` and `\u000c`). -/
def escapeByte (b : Byte) : GoString :=
  if b.val = 0x5C ∨ b.val = 0x22 then [0x5C, b]
  else if b.val = 0x08 then ascii "\\b"
  else if b.val = 0x0C then ascii "\\f"
  else if b.val = 0x0A then ascii "\\n"
  else if b.val = 0x0D then ascii "\\r"
  else if b.val = 0x09 then ascii "\\t"
  else ascii "\\u00" ++ [hex (b.val >>> 4), hex (b.val &&& 0xF)]

/-- The constant `utf8.RuneError`. -/
def RuneError : Nat := 0xFFFD

/-- The function `utf8.DecodeRuneInString` on a string whose first byte is not
ASCII: the rune and the number of bytes it occupies, `(RuneError, 1)` for an
invalid or truncated encoding. -/
def decodeRune : GoString → Nat × Nat
  | [] => (RuneError, 0)
  | s0 :: rest =>
    let s0 := s0.val
    let cont (b : Byte) : Bool := decide (0x80 ≤ b.val ∧ b.val ≤ 0xBF)
    if 0xC2 ≤ s0 ∧ s0 ≤ 0xDF then
      match rest with
      | s1 :: _ =>
        if cont s1 then ((s0 &&& 0x1F) <<< 6 ||| (s1.val &&& 0x3F), 2) else (RuneError, 1)
      | _ => (RuneError, 1)
    else if 0xE0 ≤ s0 ∧ s0 ≤ 0xEF then
      let lo := if s0 = 0xE0 then 0xA0 else 0x80
      let hi := if s0 = 0xED then 0x9F else 0xBF
      match rest with
      | s1 :: s2 :: _ =>
        if s1.val < lo ∨ hi < s1.val then (RuneError, 1)
        else if ¬ cont s2 then (RuneError, 1)
        else ((s0 &&& 0x0F) <<< 12 ||| (s1.val &&& 0x3F) <<< 6 ||| (s2.val &&& 0x3F), 3)
      | _ => (RuneError, 1)
    else if 0xF0 ≤ s0 ∧ s0 ≤ 0xF4 then
      let lo := if s0 = 0xF0 then 0x90 else 0x80
      let hi := if s0 = 0xF4 then 0x8F else 0xBF
      match rest with
      | s1 :: s2 :: s3 :: _ =>
        if s1.val < lo ∨ hi < s1.val then (RuneError, 1)
        else if ¬ cont s2 then (RuneError, 1)
        else if ¬ cont s3 then (RuneError, 1)
        else ((s0 &&& 0x07) <<< 18 ||| (s1.val &&& 0x3F) <<< 12 ||| (s2.val &&& 0x3F) <<< 6
          ||| (s3.val &&& 0x3F), 4)
      | _ => (RuneError, 1)
    else (RuneError, 1)

/-- The loop of `appendString` with `escapeHTML` set. `pending` counts the
bytes of the current rune that are still to be passed over, `copy` tells
whether they are copied (an ordinary rune) or dropped (a rune that was
replaced by an escape). -/
def appendStringLoop : Nat → Bool → GoString → GoString
  | _, _, [] => []
  | pending + 1, copy, b :: rest =>
    (if copy then [b] else []) ++ appendStringLoop pending copy rest
  | 0, _, b :: rest =>
    if b.val < 0x80 then
      (if htmlSafeSet b then [b] else escapeByte b) ++ appendStringLoop 0 true rest
    else
      let r := decodeRune (b :: rest)
      if r.1 = RuneError ∧ r.2 = 1 then
        ascii "\\ufffd" ++ appendStringLoop 0 true rest
      else if r.1 = 0x2028 ∨ r.1 = 0x2029 then
        ascii "\\u202" ++ [hex (r.1 &&& 0xF)] ++ appendStringLoop (r.2 - 1) false rest
      else b :: appendStringLoop (r.2 - 1) true rest

/-- The function `appendString`: a JSON string literal for `src`. -/
def appendString (src : GoString) : GoString :=
  [0x22] ++ appendStringLoop 0 true src ++ [0x22]

/-- The order `strings.Compare(a, b) <= 0` by which the keys of a map are
sorted: byte-wise lexicographic. -/
def keyLE : GoString → GoString → Bool
  | [], _ => true
  | _ :: _, [] => false
  | a :: as, b :: bs => if a.val < b.val then true else if b.val < a.val then false else keyLE as bs

/-- The sorted insertion of one entry among entries sorted by key. -/
def insertEntry (kv : GoString × GoString) : List (GoString × GoString) → List (GoString × GoString)
  | [] => [kv]
  | kv2 :: rest => if keyLE kv.1 kv2.1 then kv :: kv2 :: rest else kv2 :: insertEntry kv rest

/-- The members of an object, sorted entries separated by commas. -/
def members : List (GoString × GoString) → GoString
  | [] => []
  | [kv] => appendString kv.1 ++ [0x3A] ++ appendString kv.2
  | kv :: rest => appendString kv.1 ++ [0x3A] ++ appendString kv.2 ++ [0x2C] ++ members rest

/-- The function `json.Marshal` applied to a non-nil `map[string]string`,
given as the list of its entries (distinct keys, any order): an object whose
members are sorted by key. For this type the encoder has no failing path, the
error is always nil. -/
def Marshal (m : List (GoString × GoString)) : GoString × Option GoError :=
  ([0x7B] ++ members (m.foldr insertEntry []) ++ [0x7D], none)

end json

/-! ## The collaborator `github.com/ecies/go/v2` -/

/-- The part of package `eciesgo` that `cipher.go` uses. The package is not
part of the repository; its operations are parameters. `Entropy` is what a
call draws from the system random source. -/
structure Ecies where
  /-- The type `*eciesgo.PrivateKey`. -/
  PrivateKey : Type
  /-- The type `*eciesgo.PublicKey`. -/
  PublicKey : Type
  /-- The state of the random source seen by one call. -/
  Entropy : Type
  /-- The function `eciesgo.GenerateKey()`. -/
  GenerateKey : Entropy → Except GoError PrivateKey
  /-- The field `privKey.PublicKey`. -/
  PublicKeyOf : PrivateKey → PublicKey
  /-- The method `(*PrivateKey).Hex()`. -/
  PrivateKeyHex : PrivateKey → GoString
  /-- The method `(*PublicKey).Hex(compressed)`. -/
  PublicKeyHex : PublicKey → Bool → GoString
  /-- The function `eciesgo.NewPublicKeyFromHex`. -/
  NewPublicKeyFromHex : GoString → Except GoError PublicKey
  /-- The function `eciesgo.NewPrivateKeyFromHex`. -/
  NewPrivateKeyFromHex : GoString → Except GoError PrivateKey
  /-- The function `eciesgo.Encrypt`. -/
  Encrypt : PublicKey → List Byte → Entropy → Except GoError (List Byte)
  /-- The function `eciesgo.Decrypt`. -/
  Decrypt : PrivateKey → List Byte → Except GoError (List Byte)

/-! ## `cipher.go` -/

/-- The callees of the three entry points. -/
inductive Callee where
  | GenerateKey
  | Marshal
  | NewPublicKeyFromHex
  | NewPrivateKeyFromHex
  | Encrypt
  | Decrypt
  | EncodeToString
  | DecodeString
  deriving DecidableEq, Repr

/-- The result `(string, error)` of an entry point, and the callees it
invoked, in program order. -/
structure Ret where
  val : GoString
  err : Option GoError
  calls : List Callee
  deriving DecidableEq, Repr

/-- The function `GenerateKeyPair` (cipher.go, lines 11-29). -/
def GenerateKeyPair (E : Ecies) (rnd : E.Entropy) : Ret :=
  match E.GenerateKey rnd with
  | .error err => ⟨[], some err, [.GenerateKey]⟩
  | .ok privKey =>
    let pubKey := E.PublicKeyOf privKey
    let keyPair := [(ascii "privateKey", E.PrivateKeyHex privKey),
      (ascii "publicKey", E.PublicKeyHex pubKey true)]
    match json.Marshal keyPair with
    | (_, some err) =>
      ⟨[], some (Errorf (ascii "failed to marshal key pair to JSON: ") err),
        [.GenerateKey, .Marshal]⟩
    | (keyPairJSON, none) => ⟨keyPairJSON, none, [.GenerateKey, .Marshal]⟩

/-- The function `EciesEncrypt` (cipher.go, lines 31-42). -/
def EciesEncrypt (E : Ecies) (rnd : E.Entropy) (data publicKeyHex : GoString) : Ret :=
  match E.NewPublicKeyFromHex publicKeyHex with
  | .error err =>
    ⟨[], some (Errorf (ascii "failed to decode public key: ") err), [.NewPublicKeyFromHex]⟩
  | .ok publicKey =>
    match E.Encrypt publicKey data rnd with
    | .error err =>
      ⟨[], some (Errorf (ascii "failed to encrypt data: ") err),
        [.NewPublicKeyFromHex, .Encrypt]⟩
    | .ok encryptedData =>
      let encodedData := base64.EncodeToString encryptedData
      ⟨encodedData, none, [.NewPublicKeyFromHex, .Encrypt, .EncodeToString]⟩

/-- The function `EciesDecrypt` (cipher.go, lines 44-58). -/
def EciesDecrypt (E : Ecies) (encryptedData privateKeyHex : GoString) : Ret :=
  match E.NewPrivateKeyFromHex privateKeyHex with
  | .error err =>
    ⟨[], some (Errorf (ascii "failed to decode private key: ") err), [.NewPrivateKeyFromHex]⟩
  | .ok privateKey =>
    match base64.DecodeString encryptedData with
    | (_, some err) =>
      ⟨[], some (Errorf (ascii "failed to decode encrypted data: ") err),
        [.NewPrivateKeyFromHex, .DecodeString]⟩
    | (encryptedBytes, none) =>
      match E.Decrypt privateKey encryptedBytes with
      | .error err =>
        ⟨[], some (Errorf (ascii "failed to decrypt data: ") err),
          [.NewPrivateKeyFromHex, .DecodeString, .Decrypt]⟩
      | .ok decryptedData =>
        ⟨decryptedData, none, [.NewPrivateKeyFromHex, .DecodeString, .Decrypt]⟩

/-! ## Notions used to state the properties -/

/-- The states of the reader `readObject`: `acc` holds the members read so
far, `key` and `val` the string being read. -/
inductive ReadState where
  | start
  | first
  | inKey (acc : List (GoString × GoString)) (key : GoString)
  | colon (acc : List (GoString × GoString)) (key : GoString)
  | quote (acc : List (GoString × GoString)) (key : GoString)
  | inValue (acc : List (GoString × GoString)) (key val : GoString)
  | next (acc : List (GoString × GoString))
  | comma (acc : List (GoString × GoString))
  | closed (acc : List (GoString × GoString))
  deriving DecidableEq, Repr

/-- A character that stands for itself inside a JSON string and needs no
decoding: printable ASCII other than the quote and the backslash. -/
def plainChar (c : Byte) : Bool :=
  decide (0x20 ≤ c.val ∧ c.val < 0x7F ∧ c.val ≠ 0x22 ∧ c.val ≠ 0x5C)

/-- One character of a JSON text `{"k":"v",…}` without white space and
without escapes; `none` when the character is not allowed where it stands. -/
def readStep : ReadState → Byte → Option ReadState
  | .start, c => if c = 0x7B then some .first else none
  | .first, c =>
    if c = 0x7D then some (.closed []) else if c = 0x22 then some (.inKey [] []) else none
  | .inKey acc key, c =>
    if c = 0x22 then some (.colon acc key)
    else if plainChar c then some (.inKey acc (key ++ [c])) else none
  | .colon acc key, c => if c = 0x3A then some (.quote acc key) else none
  | .quote acc key, c => if c = 0x22 then some (.inValue acc key []) else none
  | .inValue acc key val, c =>
    if c = 0x22 then some (.next (acc ++ [(key, val)]))
    else if plainChar c then some (.inValue acc key (val ++ [c])) else none
  | .next acc, c =>
    if c = 0x7D then some (.closed acc) else if c = 0x2C then some (.comma acc) else none
  | .comma acc, c => if c = 0x22 then some (.inKey acc []) else none
  | .closed _, _ => none

/-- The reader run over a text from a state. -/
def readFrom : ReadState → GoString → Option ReadState
  | st, [] => some st
  | st, c :: rest =>
    match readStep st c with
    | none => none
    | some st2 => readFrom st2 rest

/-- The members, in order, of a text that is a JSON object of strings written
without white space and without escapes; `none` for any other text. -/
def readObject (text : GoString) : Option (List (GoString × GoString)) :=
  match readFrom .start text with
  | some (.closed acc) => some acc
  | _ => none

/-- A hexadecimal digit, either case. -/
def isHexDigit (b : Byte) : Bool :=
  decide (b ∈ ascii "0123456789abcdefABCDEF")

/-- A string of hexadecimal digits. -/
def isHex (s : GoString) : Bool := s.all isHexDigit

/-- The text `{"privateKey":"<sk>","publicKey":"<pk>"}`. -/
def keyPairText (sk pk : GoString) : GoString :=
  ascii "\x7b\"privateKey\":\"" ++ sk ++ ascii "\",\"publicKey\":\"" ++ pk ++ ascii "\"\x7d"

/-- A key pair `(sk, pk)` produced by `GenerateKeyPair`: two hexadecimal
strings that are the values of the JSON object returned, without error, by
some call of `GenerateKeyPair`. -/
def IsKeyPair (E : Ecies) (sk pk : GoString) : Prop :=
  isHex sk = true ∧ isHex pk = true ∧
    ∃ (rnd : E.Entropy) (calls : List Callee),
      GenerateKeyPair E rnd = ⟨keyPairText sk pk, none, calls⟩

/-- The base64 text of a 98-byte envelope: the byte `0x04`, the two 32-byte
coordinates of the base point of the curve secp256k1, and 33 zero bytes. It
is long enough to hold an uncompressed curve point, a 16-byte nonce, a
16-byte tag and one byte of ciphertext. -/
def pointEnvelopeText : GoString :=
  ascii ("BHm+Zn753LusVaBilc6HCwcCm/zbLc4o2VnygVsW+BeYSDradyajxGVdpPv8DhEIqP0XtEimhVQZnEfQj/sQ1Lg" ++
    "AAAAAAAAAAAAAAAAAAAAAAAAAAAAAAAAAAAAAAAAAAAA=")

/-- The byte `b` with bit `j` inverted, `b ^ (1 << j)`. -/
def flipBit (b : Byte) (j : Nat) : Byte := toByte (b.val ^^^ (1 <<< j))

/-- The byte sequence `c` with bit `j` of its byte `i` inverted. -/
def flipBitAt : List Byte → Nat → Nat → List Byte
  | [], _, _ => []
  | b :: bs, 0, j => flipBit b j :: bs
  | b :: bs, i + 1, j => b :: flipBitAt bs i j

/-- Modelled from the spec: the key serialization of the ECIES primitive
`github.com/ecies/go/v2`, whose code is missing (spec §3, "every public key
hex string must decode to a valid point on the chosen curve; every private key
hex string must decode to a valid scalar"; §6, "hex-based key
serialization/deserialization compatible with the compressed-point
convention"). A key written by `Hex` is a hexadecimal string that the matching
`New…FromHex` reads back as the same key. -/
structure HexSerialization (E : Ecies) : Prop where
  privateKey : ∀ sk, E.NewPrivateKeyFromHex (E.PrivateKeyHex sk) = .ok sk
  publicKey : ∀ pk, E.NewPublicKeyFromHex (E.PublicKeyHex pk true) = .ok pk
  privateDigits : ∀ sk, isHex (E.PrivateKeyHex sk) = true
  publicDigits : ∀ pk, isHex (E.PublicKeyHex pk true) = true

/-- Modelled from the spec: correctness of the ECIES primitive
`github.com/ecies/go/v2`, whose code is missing (spec §6, "exact algorithm
choices … must match on both encrypt and decrypt sides"; §8, "Round-trip",
stated there for the entry points). What `Encrypt` produced under the public
key of `sk` is decrypted by `sk` to the message. -/
def DecryptsOwn (E : Ecies) : Prop :=
  ∀ sk m rnd c, E.Encrypt (E.PublicKeyOf sk) m rnd = .ok c → E.Decrypt sk c = .ok m

/-- Modelled from the spec: integrity of the ECIES primitive
`github.com/ecies/go/v2`, whose code is missing (spec §4.1, "the authenticated
decryption fails (wrong key, corrupted ciphertext, or tampering)"; §8, "Tamper
detection: flipping any bit in the base64-decoded ciphertext before decryption
causes Decrypt to fail"). An envelope produced by `Encrypt` in which one bit
was inverted is rejected by `Decrypt`. -/
def RejectsTampered (E : Ecies) : Prop :=
  ∀ sk m rnd c i j, E.Encrypt (E.PublicKeyOf sk) m rnd = .ok c → i < c.length → j < 8 →
    ∃ e, E.Decrypt sk (flipBitAt c i j) = .error e

/-- Modelled from the spec: key binding of the ECIES primitive
`github.com/ecies/go/v2`, whose code is missing (spec §4.1, "the authenticated
decryption fails (wrong key, corrupted ciphertext, or tampering)"; §8,
"Cross-key failure"). An envelope produced for the public key of one private
key is rejected by `Decrypt` under any other private key. -/
def RejectsOtherKey (E : Ecies) : Prop :=
  ∀ sk1 sk2 m rnd c, sk1 ≠ sk2 → E.Encrypt (E.PublicKeyOf sk1) m rnd = .ok c →
    ∃ e, E.Decrypt sk2 c = .error e

/-! ## An executable instance of the collaborator

A one-byte-key scheme with an additive checksum in place of the curve and
the cipher. It gives no secrecy; it implements the interface `Ecies`, meets
the contract above, and serves to evaluate the entry points on concrete
inputs. -/

namespace Checksum

/-- The sum of the bytes of a sequence. -/
def byteSum : List Byte → Nat
  | [] => 0
  | b :: bs => b.val + byteSum bs

/-- The value of a hexadecimal digit. -/
def fromHexChar (c : Byte) : Option Nat :=
  if 48 ≤ c.val ∧ c.val ≤ 57 then some (c.val - 48)
  else if 97 ≤ c.val ∧ c.val ≤ 102 then some (c.val - 87)
  else if 65 ≤ c.val ∧ c.val ≤ 70 then some (c.val - 55)
  else none

/-- A key byte as two lower-case hexadecimal digits. -/
def keyHex (k : Byte) : GoString := [json.hex (k.val >>> 4), json.hex (k.val &&& 0xF)]

/-- The key byte written as two hexadecimal digits. -/
def keyFromHex : GoString → Except GoError Byte
  | [h, l] =>
    match fromHexChar h, fromHexChar l with
    | some x, some y => .ok (toByte (x <<< 4 ||| y))
    | _, _ => .error (.errorString (ascii "cannot decode hex string: invalid byte"))
  | _ => .error (.errorString (ascii "invalid length of key"))

/-- The public key of a private key: its complement. -/
def publicKeyOf (sk : Byte) : Byte := toByte (255 - sk.val)

/-- A key from the first byte of the random source. -/
def generateKey : List Byte → Except GoError Byte
  | [] => .error (.errorString (ascii "cannot generate key pair: EOF"))
  | b :: _ => .ok b

/-- The checksum byte that makes key, nonce, message and tag sum to zero. -/
def tag (pk nonce : Byte) (m : List Byte) : Byte :=
  toByte (256 - (pk.val + nonce.val + byteSum m) % 256)

/-- The envelope `nonce || message || tag`. -/
def encrypt (pk : Byte) (m : List Byte) : List Byte → Except GoError (List Byte)
  | [] => .error (.errorString (ascii "cannot read random bytes for nonce: EOF"))
  | nonce :: _ => .ok (nonce :: (m ++ [tag pk nonce m]))

/-- The message of an envelope whose checksum holds under the key. The two
refusals are the two failures of a decryption that the spec tells apart
(§4.1, an input that is not "a well-formed ECIES envelope", and "the
authenticated decryption fails"): an envelope too short to hold a nonce and a
tag is refused for its length, and an envelope whose checksum does not hold is
refused with the error of the authentication step, wrapped by the
decryption. -/
def decrypt (sk : Byte) (c : List Byte) : Except GoError (List Byte) :=
  if c.length < 2 then .error (.errorString (ascii "invalid length of message"))
  else if ((publicKeyOf sk).val + byteSum c) % 256 ≠ 0 then
    .error (Errorf (ascii "cannot decrypt ciphertext: ")
      (.errorString (ascii "cipher: message authentication failed")))
  else .ok c.tail.dropLast

end Checksum

/-- The checksum scheme as a collaborator. -/
@[reducible] def checksumEcies : Ecies where
  PrivateKey := Byte
  PublicKey := Byte
  Entropy := List Byte
  GenerateKey := Checksum.generateKey
  PublicKeyOf := Checksum.publicKeyOf
  PrivateKeyHex := Checksum.keyHex
  PublicKeyHex := fun pk _ => Checksum.keyHex pk
  NewPublicKeyFromHex := Checksum.keyFromHex
  NewPrivateKeyFromHex := Checksum.keyFromHex
  Encrypt := Checksum.encrypt
  Decrypt := Checksum.decrypt

/-! ## Facts about `encoding/base64` -/

theorem toByte_val (x : Nat) : (toByte x).val = x % 256 := by
  simp [toByte, Fin.ofNat]

theorem toByte_eq (x : Nat) (a : Byte) (h : x % 256 = a.val) : toByte x = a :=
  Fin.ext (by rw [toByte_val, h])

namespace base64

theorem shl_or (x y k : Nat) (h : y < 2 ^ k) : x <<< k ||| y = x * 2 ^ k + y := by
  rw [Nat.shiftLeft_eq, Nat.mul_comm x, ← Nat.mul_add_lt_is_or h]

theorem and_63 (x : Nat) : x &&& 0x3F = x % 64 :=
  Nat.and_pow_two_sub_one_eq_mod x 6

theorem decodeMap_encode (i : Nat) (h : i < 64) : decodeMap (encode i) = i := by
  have key : ∀ k : Fin 64, decodeMap (encode k.val) = k.val := by decide
  exact key ⟨i, h⟩

theorem decodeMap_encode_mod (x : Nat) : decodeMap (encode (x % 64)) = x % 64 :=
  decodeMap_encode _ (Nat.mod_lt _ (by decide))

theorem decodeMap_padChar : decodeMap padChar = 0xff := by decide

theorem pack3 (a b c : Nat) (hb : b < 256) (hc : c < 256) :
    a <<< 16 ||| b <<< 8 ||| c = a * 65536 + b * 256 + c := by
  rw [Nat.or_assoc, shl_or b c 8 (by simpa using hc), shl_or a _ 16 (by norm_num; omega)]
  norm_num; omega

theorem pack4 (p q r s : Nat) (hq : q < 64) (hr : r < 64) (hs : s < 64) :
    p <<< 18 ||| q <<< 12 ||| r <<< 6 ||| s = p * 262144 + q * 4096 + r * 64 + s := by
  rw [Nat.or_assoc, Nat.or_assoc, shl_or r s 6 (by simpa using hs),
    shl_or q _ 12 (by norm_num; omega), shl_or p _ 18 (by norm_num; omega)]
  norm_num; omega

theorem quantumBytes_three (a b c : Byte) :
    quantumBytes
      [(a.val <<< 16 ||| b.val <<< 8 ||| c.val) >>> 18 &&& 0x3F,
       (a.val <<< 16 ||| b.val <<< 8 ||| c.val) >>> 12 &&& 0x3F,
       (a.val <<< 16 ||| b.val <<< 8 ||| c.val) >>> 6 &&& 0x3F,
       (a.val <<< 16 ||| b.val <<< 8 ||| c.val) &&& 0x3F] 4 = [a, b, c] := by
  have ha := a.isLt
  have hb := b.isLt
  have hc := c.isLt
  simp only [quantumBytes, List.getD_cons_zero, List.getD_cons_succ, and_63,
    Nat.shiftRight_eq_div_pow, pack3 _ _ _ hb hc]
  rw [pack4 _ _ _ _ (Nat.mod_lt _ (by decide)) (Nat.mod_lt _ (by decide))
    (Nat.mod_lt _ (by decide))]
  simp only [List.take, Nat.reduceSub, Nat.reducePow, Nat.pow_zero, Nat.div_one]
  rw [toByte_eq _ a (by omega), toByte_eq _ b (by omega), toByte_eq _ c (by omega)]

theorem quantumBytes_two (a b : Byte) :
    quantumBytes
      [(a.val <<< 16 ||| b.val <<< 8) >>> 18 &&& 0x3F,
       (a.val <<< 16 ||| b.val <<< 8) >>> 12 &&& 0x3F,
       (a.val <<< 16 ||| b.val <<< 8) >>> 6 &&& 0x3F] 3 = [a, b] := by
  have ha := a.isLt
  have hb := b.isLt
  have h3 := pack3 a.val b.val 0 hb (by decide)
  rw [Nat.or_zero] at h3
  simp only [quantumBytes, List.getD_cons_zero, List.getD_cons_succ, List.getD_nil, and_63,
    Nat.shiftRight_eq_div_pow, h3]
  rw [pack4 _ _ _ _ (Nat.mod_lt _ (by decide)) (Nat.mod_lt _ (by decide)) (by decide)]
  simp only [List.take, Nat.reduceSub, Nat.reducePow]
  rw [toByte_eq _ a (by omega), toByte_eq _ b (by omega)]

theorem quantumBytes_one (a : Byte) :
    quantumBytes [(a.val <<< 16) >>> 18 &&& 0x3F, (a.val <<< 16) >>> 12 &&& 0x3F] 2 = [a] := by
  have ha := a.isLt
  have h3 : a.val <<< 16 = a.val * 65536 := by rw [Nat.shiftLeft_eq]
  have h4 := pack4 (a.val * 65536 / 2 ^ 18 % 64) (a.val * 65536 / 2 ^ 12 % 64) 0 0
    (Nat.mod_lt _ (by decide)) (by decide) (by decide)
  simp only [quantumBytes, List.getD_cons_zero, List.getD_cons_succ, List.getD_nil, and_63,
    Nat.shiftRight_eq_div_pow, h3]
  rw [h4]
  simp only [List.take, Nat.reduceSub, Nat.reducePow]
  rw [toByte_eq _ a (by omega)]

theorem encode_ne_ff (x : Nat) : decodeMap (encode (x % 64)) ≠ 0xff := by
  rw [decodeMap_encode_mod]
  have := Nat.mod_lt x (show 0 < 64 by decide)
  omega

/-- One step of the decoder on an alphabet character that does not complete
the quantum. -/
theorem decodeLoop_alphabet (n : Nat) (dbuf : List Nat) (x : Nat) (rest : GoString) (si : Nat)
    (h : dbuf.length ≠ 3) :
    decodeLoop n dbuf (encode (x % 64) :: rest) si
      = decodeLoop n (dbuf ++ [x % 64]) rest (si + 1) := by
  have hx : ¬ x % 64 = 255 := by omega
  rw [decodeLoop]
  simp only [decodeMap_encode_mod, h, hx, ne_eq, not_false_eq_true, if_true, if_false]

/-- One step of the decoder on the alphabet character that completes the
quantum. -/
theorem decodeLoop_alphabet_last (n : Nat) (dbuf : List Nat) (x : Nat) (rest : GoString)
    (si : Nat) (h : dbuf.length = 3) :
    decodeLoop n dbuf (encode (x % 64) :: rest) si
      = (quantumBytes (dbuf ++ [x % 64]) 4 ++ (decodeLoop n [] rest (si + 1)).1,
          (decodeLoop n [] rest (si + 1)).2) := by
  have hx : ¬ x % 64 = 255 := by omega
  rw [decodeLoop]
  simp only [decodeMap_encode_mod, hx, h, ne_eq, not_false_eq_true, if_true]

/-- The decoder on the final `"=="` of a one-byte block. -/
theorem decodeLoop_pad2 (n : Nat) (p q : Nat) (si : Nat) :
    decodeLoop n [p, q] [padChar, padChar] si = (quantumBytes [p, q] 2, none) := by
  have h61 : decodeMap (61 : Byte) = 255 := by decide
  rw [decodeLoop]
  simp [skipNewlines, padChar, h61]

/-- The decoder on the final `"="` of a two-byte block. -/
theorem decodeLoop_pad1 (n : Nat) (p q r : Nat) (si : Nat) :
    decodeLoop n [p, q, r] [padChar] si = (quantumBytes [p, q, r] 3, none) := by
  have h61 : decodeMap (61 : Byte) = 255 := by decide
  rw [decodeLoop]
  simp [skipNewlines, padChar, h61]

/-- Decoding what `Encode` produced returns the source bytes and no error,
whatever the index the decoder starts from. -/
theorem decodeLoop_Encode (n : Nat) : ∀ (bs : List Byte) (si : Nat),
    decodeLoop n [] (Encode bs) si = (bs, none)
  | [], si => by simp [Encode, decodeLoop]
  | [a], si => by
    have h := quantumBytes_one a
    simp only [and_63] at h
    simp only [Encode, and_63]
    rw [decodeLoop_alphabet _ _ _ _ _ (by simp), decodeLoop_alphabet _ _ _ _ _ (by simp),
      List.nil_append, List.singleton_append, decodeLoop_pad2, h]
  | [a, b], si => by
    have h := quantumBytes_two a b
    simp only [and_63] at h
    simp only [Encode, and_63]
    rw [decodeLoop_alphabet _ _ _ _ _ (by simp), decodeLoop_alphabet _ _ _ _ _ (by simp),
      decodeLoop_alphabet _ _ _ _ _ (by simp)]
    simp only [List.nil_append, List.singleton_append, List.cons_append]
    rw [decodeLoop_pad1, h]
  | a :: b :: c :: rest, si => by
    have h := quantumBytes_three a b c
    simp only [and_63] at h
    have ih := decodeLoop_Encode n rest (si + 1 + 1 + 1 + 1)
    simp only [Encode, and_63]
    rw [decodeLoop_alphabet _ _ _ _ _ (by simp), decodeLoop_alphabet _ _ _ _ _ (by simp),
      decodeLoop_alphabet _ _ _ _ _ (by simp), decodeLoop_alphabet_last _ _ _ _ _ (by rfl), ih]
    simp only [List.nil_append, List.singleton_append, List.cons_append, h]

/-- Round trip of the standard encoding: `DecodeString(EncodeToString(b))`
returns `b` and a nil error. -/
theorem DecodeString_EncodeToString (bs : List Byte) :
    DecodeString (EncodeToString bs) = (bs, none) :=
  decodeLoop_Encode _ bs 0

theorem mem_skipNewlines : ∀ (s : GoString) (si : Nat) (c : Byte), c ∈ s →
    (c = 10 ∨ c = 13) ∨ c ∈ (skipNewlines s si).1
  | [], _, _, h => by simp at h
  | d :: rest, si, c, h => by
    unfold skipNewlines
    by_cases hd : d = 10 ∨ d = 13
    · rw [if_pos hd]
      rcases List.mem_cons.mp h with h1 | h1
      · exact Or.inl (h1 ▸ hd)
      · exact mem_skipNewlines rest (si + 1) c h1
    · rw [if_neg hd]
      exact Or.inr h

/-- A byte that is neither in the alphabet, nor a line break, nor the padding
character makes `Decode` fail, wherever it stands. -/
theorem decodeLoop_foreign (n : Nat) (x : Byte) (hx : decodeMap x = 0xff)
    (h10 : x ≠ 10) (h13 : x ≠ 13) (hpad : x ≠ padChar) :
    ∀ (s : GoString) (dbuf : List Nat) (si : Nat), x ∈ s → (decodeLoop n dbuf s si).2 ≠ none
  | [], _, _, h => by simp at h
  | c :: rest, dbuf, si, h => by
    have hrest : c ≠ x → x ∈ rest := fun hc =>
      (List.mem_cons.mp h).resolve_left (fun e => hc e.symm)
    have hnl : ∀ t : GoString, x ∈ t → ∀ k, (skipNewlines t k).1 ≠ [] := by
      intro t ht k hnil
      rcases mem_skipNewlines t k x ht with h1 | h1
      · rcases h1 with h1 | h1
        · exact h10 h1
        · exact h13 h1
      · rw [hnil] at h1
        simp at h1
    unfold decodeLoop
    by_cases hc : decodeMap c ≠ 0xff
    · have hcx : c ≠ x := fun e => hc (e ▸ hx)
      rw [if_pos hc]
      by_cases h3 : dbuf.length = 3
      · rw [if_pos h3]
        exact decodeLoop_foreign n x hx h10 h13 hpad rest [] (si + 1) (hrest hcx)
      · rw [if_neg h3]
        exact decodeLoop_foreign n x hx h10 h13 hpad rest _ (si + 1) (hrest hcx)
    · rw [if_neg hc]
      by_cases hn : c = 10 ∨ c = 13
      · have hcx : c ≠ x := by
          rintro rfl
          rcases hn with hn | hn
          · exact h10 hn
          · exact h13 hn
        rw [if_pos hn]
        exact decodeLoop_foreign n x hx h10 h13 hpad rest dbuf (si + 1) (hrest hcx)
      · rw [if_neg hn]
        by_cases hp : c ≠ padChar
        · rw [if_pos hp]
          simp
        · have hcx : c ≠ x := fun e => hp (e ▸ hpad)
          have hxr := hrest hcx
          rw [if_neg hp]
          by_cases hl : dbuf.length < 2
          · rw [if_pos hl]
            simp
          · rw [if_neg hl]
            by_cases h2 : dbuf.length = 2
            · rw [if_pos h2]
              rcases hs : skipNewlines rest (si + 1) with ⟨t, k⟩
              cases t with
              | nil => simp
              | cons c2 rest2 =>
                simp only
                by_cases hc2 : c2 ≠ padChar
                · rw [if_pos hc2]
                  simp
                · have hxt : x ∈ c2 :: rest2 := by
                    rcases mem_skipNewlines rest (si + 1) x hxr with h1 | h1
                    · rcases h1 with h1 | h1
                      · exact absurd h1 h10
                      · exact absurd h1 h13
                    · rw [hs] at h1
                      exact h1
                  have hxr2 : x ∈ rest2 :=
                    (List.mem_cons.mp hxt).resolve_left
                      (fun e => hc2 (by rw [← e]; exact hpad))
                  rw [if_neg hc2]
                  rcases hs2 : skipNewlines rest2 (k + 1) with ⟨t2, k2⟩
                  cases t2 with
                  | nil =>
                    have := hnl rest2 hxr2 (k + 1)
                    rw [hs2] at this
                    exact absurd rfl this
                  | cons _ _ => simp
            · rw [if_neg h2]
              rcases hs : skipNewlines rest (si + 1) with ⟨t, k⟩
              cases t with
              | nil =>
                have := hnl rest hxr (si + 1)
                rw [hs] at this
                exact absurd rfl this
              | cons _ _ => simp

/-- A string that contains a byte outside the alphabet, the line breaks and
the padding character is rejected by `DecodeString`. -/
theorem DecodeString_foreign (s : GoString) (x : Byte) (hx : decodeMap x = 0xff)
    (h10 : x ≠ 10) (h13 : x ≠ 13) (hpad : x ≠ padChar) (h : x ∈ s) :
    (DecodeString s).2 ≠ none :=
  decodeLoop_foreign s.length x hx h10 h13 hpad s [] 0 h

end base64

/-! ## The checksum scheme meets the contract -/

namespace Checksum

set_option maxRecDepth 100000 in
theorem keyFromHex_keyHex : ∀ k : Byte, keyFromHex (keyHex k) = .ok k := by decide

set_option maxRecDepth 100000 in
theorem isHex_keyHex : ∀ k : Byte, isHex (keyHex k) = true := by decide

theorem publicKeyOf_val (sk : Byte) : (publicKeyOf sk).val = 255 - sk.val := by
  have := sk.isLt
  rw [publicKeyOf, toByte_val]
  omega

theorem byteSum_append (xs ys : List Byte) : byteSum (xs ++ ys) = byteSum xs + byteSum ys := by
  induction xs with
  | nil => simp [byteSum]
  | cons x xs ih => simp [byteSum, ih, Nat.add_assoc]

/-- The bytes of an envelope and the public key it was made for sum to a
multiple of 256. -/
theorem byteSum_envelope (pk nonce : Byte) (m : List Byte) :
    (pk.val + byteSum (nonce :: (m ++ [tag pk nonce m]))) % 256 = 0 := by
  simp only [byteSum, byteSum_append, tag, toByte_val, Nat.add_zero]
  omega

set_option maxRecDepth 100000 in
theorem flipBit_ne : ∀ (b : Byte) (j : Fin 8), flipBit b j.val ≠ b := by decide

/-- Inverting one bit changes the sum of the bytes by the difference of two
distinct byte values. -/
theorem byteSum_flipBitAt : ∀ (c : List Byte) (i j : Nat), i < c.length → j < 8 →
    ∃ old new : Byte, old ≠ new ∧ byteSum (flipBitAt c i j) + old.val = byteSum c + new.val
  | [], _, _, h, _ => by simp at h
  | b :: bs, 0, j, _, hj =>
    ⟨b, flipBit b j, fun h => flipBit_ne b ⟨j, hj⟩ h.symm, by simp only [flipBitAt, byteSum]; omega⟩
  | b :: bs, i + 1, j, h, hj => by
    obtain ⟨old, new, hne, hsum⟩ :=
      byteSum_flipBitAt bs i j (by simpa using h) hj
    exact ⟨old, new, hne, by simp only [flipBitAt, byteSum]; omega⟩

theorem length_flipBitAt : ∀ (c : List Byte) (i j : Nat), (flipBitAt c i j).length = c.length
  | [], _, _ => rfl
  | _ :: _, 0, _ => rfl
  | _ :: bs, i + 1, j => by simp [flipBitAt, length_flipBitAt bs i j]

end Checksum

theorem checksumEcies_hexSerialization : HexSerialization checksumEcies where
  privateKey := Checksum.keyFromHex_keyHex
  publicKey := Checksum.keyFromHex_keyHex
  privateDigits := Checksum.isHex_keyHex
  publicDigits := Checksum.isHex_keyHex

theorem checksumEcies_decryptsOwn : DecryptsOwn checksumEcies := by
  intro sk m rnd c h
  cases rnd with
  | nil => simp [checksumEcies, Checksum.encrypt] at h
  | cons nonce rest =>
    simp only [checksumEcies, Checksum.encrypt, Except.ok.injEq] at h
    subst h
    have hs := Checksum.byteSum_envelope (Checksum.publicKeyOf sk) nonce m
    simp [checksumEcies, Checksum.decrypt, hs]

theorem checksumEcies_rejectsTampered : RejectsTampered checksumEcies := by
  intro sk m rnd c i j h hi hj
  cases rnd with
  | nil => simp [checksumEcies, Checksum.encrypt] at h
  | cons nonce rest =>
    simp only [checksumEcies, Checksum.encrypt, Except.ok.injEq] at h
    subst h
    have hs := Checksum.byteSum_envelope (Checksum.publicKeyOf sk) nonce m
    obtain ⟨old, new, hne, hsum⟩ := Checksum.byteSum_flipBitAt _ i j hi hj
    have hold := old.isLt
    have hnew := new.isLt
    have hval : old.val ≠ new.val := fun h => hne (Fin.ext h)
    have hbad : ((Checksum.publicKeyOf sk).val +
        Checksum.byteSum (flipBitAt (nonce :: (m ++ [Checksum.tag (Checksum.publicKeyOf sk) nonce m])) i j))
          % 256 ≠ 0 := by omega
    show ∃ e, Checksum.decrypt _ _ = .error e
    unfold Checksum.decrypt
    by_cases hlen : (flipBitAt (nonce :: (m ++ [Checksum.tag (Checksum.publicKeyOf sk) nonce m])) i j).length < 2
    · rw [if_pos hlen]
      exact ⟨_, rfl⟩
    · rw [if_neg hlen, if_pos hbad]
      exact ⟨_, rfl⟩

theorem checksumEcies_rejectsOtherKey : RejectsOtherKey checksumEcies := by
  intro sk1 sk2 m rnd c hne h
  cases rnd with
  | nil => simp [checksumEcies, Checksum.encrypt] at h
  | cons nonce rest =>
    simp only [checksumEcies, Checksum.encrypt, Except.ok.injEq] at h
    subst h
    have hs := Checksum.byteSum_envelope (Checksum.publicKeyOf sk1) nonce m
    have h1 := Checksum.publicKeyOf_val sk1
    have h2 := Checksum.publicKeyOf_val sk2
    have hl1 := sk1.isLt
    have hl2 := sk2.isLt
    have hval : sk1.val ≠ sk2.val := fun h => hne (Fin.ext h)
    have hbad : ((Checksum.publicKeyOf sk2).val +
        Checksum.byteSum (nonce :: (m ++ [Checksum.tag (Checksum.publicKeyOf sk1) nonce m])))
          % 256 ≠ 0 := by omega
    show ∃ e, Checksum.decrypt _ _ = .error e
    unfold Checksum.decrypt
    by_cases hlen : (nonce :: (m ++ [Checksum.tag (Checksum.publicKeyOf sk1) nonce m])).length < 2
    · rw [if_pos hlen]
      exact ⟨_, rfl⟩
    · rw [if_neg hlen, if_pos hbad]
      exact ⟨_, rfl⟩

/-! ## Facts about `encoding/json` -/

namespace json

/-- Bytes of `htmlSafeSet` are copied unchanged by `appendString`. -/
theorem appendStringLoop_safe : ∀ s : GoString, (∀ b ∈ s, htmlSafeSet b = true) →
    appendStringLoop 0 true s = s
  | [], _ => rfl
  | b :: rest, h => by
    have hb : htmlSafeSet b = true := h b (List.mem_cons_self _ _)
    have hlt : b.val < 0x80 := by
      simp only [htmlSafeSet, decide_eq_true_eq] at hb
      exact hb.2.1
    have ih := appendStringLoop_safe rest (fun c hc => h c (List.mem_cons_of_mem _ hc))
    simp only [appendStringLoop, hlt, hb, if_true, ih, List.singleton_append]

set_option maxRecDepth 100000 in
theorem htmlSafeSet_of_isHexDigit : ∀ b : Byte, isHexDigit b = true → htmlSafeSet b = true := by
  decide

/-- A string of hexadecimal digits is written between quotes unchanged. -/
theorem appendString_hex (s : GoString) (h : isHex s = true) :
    appendString s = [0x22] ++ s ++ [0x22] := by
  have hs : ∀ b ∈ s, htmlSafeSet b = true := fun b hb =>
    htmlSafeSet_of_isHexDigit b (List.all_eq_true.mp h b hb)
  rw [appendString, appendStringLoop_safe s hs]

/-- The JSON text of the map built by `GenerateKeyPair`, for any two values:
the member `privateKey` comes first. -/
theorem Marshal_keyPair_any (a b : GoString) :
    Marshal [(ascii "privateKey", a), (ascii "publicKey", b)]
      = (ascii "\x7b\"privateKey\":" ++ appendString a ++ ascii ",\"publicKey\":"
          ++ appendString b ++ ascii "\x7d", none) := by
  have hk1 : appendString (ascii "privateKey") = ascii "\"privateKey\"" := by decide
  have hk2 : appendString (ascii "publicKey") = ascii "\"publicKey\"" := by decide
  have hle : keyLE (ascii "privateKey") (ascii "publicKey") = true := by decide
  have h1 : ascii "\x7b\"privateKey\":" = [0x7B] ++ ascii "\"privateKey\"" ++ [0x3A] := by
    decide
  have h2 : ascii ",\"publicKey\":" = [0x2C] ++ ascii "\"publicKey\"" ++ [0x3A] := by
    decide
  have h3 : ascii "\x7d" = [0x7D] := by decide
  simp only [Marshal, List.foldr, insertEntry, hle, if_true, members, hk1, hk2, h1, h2, h3]
  simp only [List.append_assoc, List.cons_append, List.nil_append, List.singleton_append]

/-- The JSON text of the map built by `GenerateKeyPair`, for hexadecimal
values. -/
theorem Marshal_keyPair (a b : GoString) (ha : isHex a = true) (hb : isHex b = true) :
    Marshal [(ascii "privateKey", a), (ascii "publicKey", b)] = (keyPairText a b, none) := by
  have hk1 : appendString (ascii "privateKey") = ascii "\"privateKey\"" := by decide
  have hk2 : appendString (ascii "publicKey") = ascii "\"publicKey\"" := by decide
  have hle : keyLE (ascii "privateKey") (ascii "publicKey") = true := by decide
  have h1 : ascii "\x7b\"privateKey\":\"" = [0x7B] ++ ascii "\"privateKey\"" ++ [0x3A, 0x22] := by
    decide
  have h2 : ascii "\",\"publicKey\":\"" = [0x22, 0x2C] ++ ascii "\"publicKey\"" ++ [0x3A, 0x22] := by
    decide
  have h3 : ascii "\"\x7d" = [0x22, 0x7D] := by decide
  simp only [Marshal, List.foldr, insertEntry, hle, if_true, members, hk1, hk2,
    appendString_hex a ha, appendString_hex b hb, keyPairText, h1, h2, h3]
  simp only [List.append_assoc, List.cons_append, List.nil_append, List.singleton_append]

end json

/-! ## Reading the key pair text -/

/-- A string free of a byte `q`, followed by `q`, is a unique prefix. -/
theorem append_cons_unique (q : Byte) : ∀ (a a' x y : GoString),
    (∀ c ∈ a, c ≠ q) → (∀ c ∈ a', c ≠ q) → a ++ q :: x = a' ++ q :: y → a = a' ∧ x = y
  | [], [], x, y, _, _, h => by simpa using h
  | [], c :: a', x, y, _, h', h => by
    simp only [List.nil_append, List.cons_append, List.cons.injEq] at h
    exact absurd h.1.symm (h' c (List.mem_cons_self _ _))
  | c :: a, [], x, y, h', _, h => by
    simp only [List.nil_append, List.cons_append, List.cons.injEq] at h
    exact absurd h.1 (h' c (List.mem_cons_self _ _))
  | c :: a, c' :: a', x, y, ha, ha', h => by
    simp only [List.cons_append, List.cons.injEq] at h
    obtain ⟨h1, h2⟩ := append_cons_unique q a a' x y
      (fun d hd => ha d (List.mem_cons_of_mem _ hd))
      (fun d hd => ha' d (List.mem_cons_of_mem _ hd)) h.2
    exact ⟨by rw [h.1, h1], h2⟩

set_option maxRecDepth 100000 in
theorem isHexDigit_ne_quote : ∀ b : Byte, isHexDigit b = true → b ≠ 0x22 := by decide

theorem isHex_ne_quote (s : GoString) (h : isHex s = true) : ∀ c ∈ s, c ≠ 0x22 :=
  fun c hc => isHexDigit_ne_quote c (List.all_eq_true.mp h c hc)

/-- The key pair text determines its two hexadecimal values. -/
theorem keyPairText_inj (a b a' b' : GoString) (ha : isHex a = true) (hb : isHex b = true)
    (ha' : isHex a' = true) (hb' : isHex b' = true)
    (h : keyPairText a b = keyPairText a' b') : a = a' ∧ b = b' := by
  have h2 : ascii "\",\"publicKey\":\"" = 0x22 :: ascii ",\"publicKey\":\"" := by decide
  have h3 : ascii "\"\x7d" = 0x22 :: ascii "\x7d" := by decide
  simp only [keyPairText, h2, h3, List.append_assoc, List.cons_append] at h
  have h' := List.append_cancel_left h
  obtain ⟨e1, r1⟩ := append_cons_unique 0x22 a a' _ _ (isHex_ne_quote a ha)
    (isHex_ne_quote a' ha') h'
  have r2 := List.append_cancel_left r1
  obtain ⟨e2, _⟩ := append_cons_unique 0x22 b b' _ _ (isHex_ne_quote b hb)
    (isHex_ne_quote b' hb') r2
  exact ⟨e1, e2⟩

/-! ## Facts about the reader of JSON objects -/

theorem readFrom_append : ∀ (a b : GoString) (st : ReadState),
    readFrom st (a ++ b) = (readFrom st a).bind (fun st2 => readFrom st2 b)
  | [], _, _ => rfl
  | c :: a, b, st => by
    simp only [List.cons_append, readFrom]
    cases readStep st c with
    | none => rfl
    | some st2 => exact readFrom_append a b st2

set_option maxRecDepth 100000 in
theorem plainChar_of_isHexDigit : ∀ b : Byte, isHexDigit b = true →
    plainChar b = true ∧ b ≠ 0x22 := by
  decide

/-- Inside a value, hexadecimal digits are read as they stand. -/
theorem readFrom_inValue_hex (acc : List (GoString × GoString)) (key : GoString) :
    ∀ (v val : GoString), isHex v = true →
      readFrom (.inValue acc key val) v = some (.inValue acc key (val ++ v))
  | [], val, _ => by simp [readFrom]
  | c :: v, val, h => by
    have hc : isHexDigit c = true := List.all_eq_true.mp h c (List.mem_cons_self _ _)
    have hv : isHex v = true :=
      List.all_eq_true.mpr (fun d hd => List.all_eq_true.mp h d (List.mem_cons_of_mem _ hd))
    obtain ⟨hp, hq⟩ := plainChar_of_isHexDigit c hc
    simp only [readFrom, readStep, hq, hp, if_false, if_true]
    rw [readFrom_inValue_hex acc key v (val ++ [c]) hv]
    simp

/-- The key pair text reads as an object with exactly the two members
`privateKey` and `publicKey`, in this order, with the two values. -/
theorem readObject_keyPairText (a b : GoString) (ha : isHex a = true) (hb : isHex b = true) :
    readObject (keyPairText a b)
      = some [(ascii "privateKey", a), (ascii "publicKey", b)] := by
  have h1 : readFrom .start (ascii "\x7b\"privateKey\":\"")
      = some (.inValue [] (ascii "privateKey") []) := by decide
  have h2 : readFrom (.inValue [] (ascii "privateKey") a) (ascii "\",\"publicKey\":\"")
      = some (.inValue [(ascii "privateKey", a)] (ascii "publicKey") []) := rfl
  have h3 : readFrom (.inValue [(ascii "privateKey", a)] (ascii "publicKey") b) (ascii "\"\x7d")
      = some (.closed [(ascii "privateKey", a), (ascii "publicKey", b)]) := rfl
  simp only [readObject, keyPairText, readFrom_append, h1, Option.bind,
    readFrom_inValue_hex _ _ _ _ ha, readFrom_inValue_hex _ _ _ _ hb, List.nil_append, h2, h3]

/-! ## The three entry points, path by path -/

theorem GenerateKeyPair_of_error (E : Ecies) (rnd : E.Entropy) (e : GoError)
    (h : E.GenerateKey rnd = .error e) :
    GenerateKeyPair E rnd = ⟨[], some e, [.GenerateKey]⟩ := by
  simp only [GenerateKeyPair, h]

theorem GenerateKeyPair_of_ok (E : Ecies) (rnd : E.Entropy) (privKey : E.PrivateKey)
    (h : E.GenerateKey rnd = .ok privKey)
    (h1 : isHex (E.PrivateKeyHex privKey) = true)
    (h2 : isHex (E.PublicKeyHex (E.PublicKeyOf privKey) true) = true) :
    GenerateKeyPair E rnd =
      ⟨keyPairText (E.PrivateKeyHex privKey) (E.PublicKeyHex (E.PublicKeyOf privKey) true),
        none, [.GenerateKey, .Marshal]⟩ := by
  simp only [GenerateKeyPair, h, json.Marshal_keyPair _ _ h1 h2]

/-- Whenever key generation succeeds, `GenerateKeyPair` returns a nil error
and an object whose two members are the JSON strings of the two `Hex`
values. -/
theorem GenerateKeyPair_of_ok_any (E : Ecies) (rnd : E.Entropy) (privKey : E.PrivateKey)
    (h : E.GenerateKey rnd = .ok privKey) :
    GenerateKeyPair E rnd =
      ⟨ascii "\x7b\"privateKey\":" ++ json.appendString (E.PrivateKeyHex privKey)
          ++ ascii ",\"publicKey\":"
          ++ json.appendString (E.PublicKeyHex (E.PublicKeyOf privKey) true) ++ ascii "\x7d",
        none, [.GenerateKey, .Marshal]⟩ := by
  simp only [GenerateKeyPair, h, json.Marshal_keyPair_any]

/-- The private key behind a key pair produced by `GenerateKeyPair`. -/
theorem IsKeyPair.privKey {E : Ecies} (hHex : HexSerialization E) {sk pk : GoString}
    (h : IsKeyPair E sk pk) :
    ∃ privKey : E.PrivateKey,
      sk = E.PrivateKeyHex privKey ∧ pk = E.PublicKeyHex (E.PublicKeyOf privKey) true := by
  obtain ⟨hsk, hpk, rnd, calls, hgen⟩ := h
  cases hk : E.GenerateKey rnd with
  | error e =>
    rw [GenerateKeyPair_of_error E rnd e hk] at hgen
    simp at hgen
  | ok privKey =>
    have h1 := hHex.privateDigits privKey
    have h2 := hHex.publicDigits (E.PublicKeyOf privKey)
    rw [GenerateKeyPair_of_ok E rnd privKey hk h1 h2] at hgen
    have htext := (Ret.mk.inj hgen).1
    obtain ⟨e1, e2⟩ := keyPairText_inj _ _ _ _ h1 h2 hsk hpk htext
    exact ⟨privKey, e1.symm, e2.symm⟩

theorem EciesEncrypt_of_key_error (E : Ecies) (rnd : E.Entropy) (data publicKeyHex : GoString)
    (e : GoError) (h : E.NewPublicKeyFromHex publicKeyHex = .error e) :
    EciesEncrypt E rnd data publicKeyHex =
      ⟨[], some (Errorf (ascii "failed to decode public key: ") e), [.NewPublicKeyFromHex]⟩ := by
  simp only [EciesEncrypt, h]

theorem EciesEncrypt_of_encrypt_error (E : Ecies) (rnd : E.Entropy)
    (data publicKeyHex : GoString) (publicKey : E.PublicKey) (e : GoError)
    (h : E.NewPublicKeyFromHex publicKeyHex = .ok publicKey)
    (h2 : E.Encrypt publicKey data rnd = .error e) :
    EciesEncrypt E rnd data publicKeyHex =
      ⟨[], some (Errorf (ascii "failed to encrypt data: ") e),
        [.NewPublicKeyFromHex, .Encrypt]⟩ := by
  simp only [EciesEncrypt, h, h2]

theorem EciesEncrypt_of_ok (E : Ecies) (rnd : E.Entropy) (data publicKeyHex : GoString)
    (publicKey : E.PublicKey) (c : List Byte)
    (h : E.NewPublicKeyFromHex publicKeyHex = .ok publicKey)
    (h2 : E.Encrypt publicKey data rnd = .ok c) :
    EciesEncrypt E rnd data publicKeyHex =
      ⟨base64.EncodeToString c, none, [.NewPublicKeyFromHex, .Encrypt, .EncodeToString]⟩ := by
  simp only [EciesEncrypt, h, h2]

/-- A successful `EciesEncrypt` returned the base64 text of an envelope that
the primitive produced under the decoded key. -/
theorem EciesEncrypt_success (E : Ecies) (rnd : E.Entropy) (data publicKeyHex : GoString)
    (publicKey : E.PublicKey) (C : GoString) (calls : List Callee)
    (h : E.NewPublicKeyFromHex publicKeyHex = .ok publicKey)
    (hC : EciesEncrypt E rnd data publicKeyHex = ⟨C, none, calls⟩) :
    ∃ c, E.Encrypt publicKey data rnd = .ok c ∧ C = base64.EncodeToString c := by
  cases h2 : E.Encrypt publicKey data rnd with
  | error e =>
    rw [EciesEncrypt_of_encrypt_error E rnd data publicKeyHex publicKey e h h2] at hC
    simp at hC
  | ok c =>
    rw [EciesEncrypt_of_ok E rnd data publicKeyHex publicKey c h h2] at hC
    exact ⟨c, rfl, ((Ret.mk.inj hC).1).symm⟩

theorem EciesDecrypt_of_key_error (E : Ecies) (encryptedData privateKeyHex : GoString)
    (e : GoError) (h : E.NewPrivateKeyFromHex privateKeyHex = .error e) :
    EciesDecrypt E encryptedData privateKeyHex =
      ⟨[], some (Errorf (ascii "failed to decode private key: ") e),
        [.NewPrivateKeyFromHex]⟩ := by
  simp only [EciesDecrypt, h]

theorem EciesDecrypt_of_base64_error (E : Ecies) (encryptedData privateKeyHex : GoString)
    (privateKey : E.PrivateKey) (e : GoError)
    (h : E.NewPrivateKeyFromHex privateKeyHex = .ok privateKey)
    (h2 : (base64.DecodeString encryptedData).2 = some e) :
    EciesDecrypt E encryptedData privateKeyHex =
      ⟨[], some (Errorf (ascii "failed to decode encrypted data: ") e),
        [.NewPrivateKeyFromHex, .DecodeString]⟩ := by
  rcases hd : base64.DecodeString encryptedData with ⟨b, err⟩
  rw [hd] at h2
  simp only at h2
  subst h2
  simp only [EciesDecrypt, h, hd]

theorem EciesDecrypt_of_decrypt_error (E : Ecies) (encryptedData privateKeyHex : GoString)
    (privateKey : E.PrivateKey) (c : List Byte) (e : GoError)
    (h : E.NewPrivateKeyFromHex privateKeyHex = .ok privateKey)
    (h2 : base64.DecodeString encryptedData = (c, none))
    (h3 : E.Decrypt privateKey c = .error e) :
    EciesDecrypt E encryptedData privateKeyHex =
      ⟨[], some (Errorf (ascii "failed to decrypt data: ") e),
        [.NewPrivateKeyFromHex, .DecodeString, .Decrypt]⟩ := by
  simp only [EciesDecrypt, h, h2, h3]

theorem EciesDecrypt_of_ok (E : Ecies) (encryptedData privateKeyHex : GoString)
    (privateKey : E.PrivateKey) (c m : List Byte)
    (h : E.NewPrivateKeyFromHex privateKeyHex = .ok privateKey)
    (h2 : base64.DecodeString encryptedData = (c, none))
    (h3 : E.Decrypt privateKey c = .ok m) :
    EciesDecrypt E encryptedData privateKeyHex =
      ⟨m, none, [.NewPrivateKeyFromHex, .DecodeString, .Decrypt]⟩ := by
  simp only [EciesDecrypt, h, h2, h3]

/-- Encrypting to the public key of a generated pair and decrypting with its
private key, when the encryption step of the primitive does not fail. -/
theorem roundtrip_of_contract (E : Ecies) (hHex : HexSerialization E) (hOwn : DecryptsOwn E)
    (sk pk P : GoString) (rnd : E.Entropy) (hkp : IsKeyPair E sk pk)
    (henc : ∀ publicKey, E.NewPublicKeyFromHex pk = .ok publicKey →
      ∃ c, E.Encrypt publicKey P rnd = .ok c) :
    ∃ C, EciesEncrypt E rnd P pk = ⟨C, none, [.NewPublicKeyFromHex, .Encrypt, .EncodeToString]⟩ ∧
      EciesDecrypt E C sk = ⟨P, none, [.NewPrivateKeyFromHex, .DecodeString, .Decrypt]⟩ := by
  obtain ⟨privKey, hsk, hpk⟩ := hkp.privKey hHex
  have hpub : E.NewPublicKeyFromHex pk = .ok (E.PublicKeyOf privKey) := by
    rw [hpk]; exact hHex.publicKey _
  have hpriv : E.NewPrivateKeyFromHex sk = .ok privKey := by
    rw [hsk]; exact hHex.privateKey _
  obtain ⟨c, hc⟩ := henc _ hpub
  exact ⟨base64.EncodeToString c, EciesEncrypt_of_ok E rnd P pk _ c hpub hc,
    EciesDecrypt_of_ok E _ sk privKey c P hpriv (base64.DecodeString_EncodeToString c)
      (hOwn privKey P rnd c hc)⟩

/-! ## Properties of the entry points -/

/-- Claim C1, as stated, fails. For the key pair generated from the random
byte `0x3c` and the plaintext `"hello-tss"`, when the random source is
exhausted at the time of the encryption the encryption step of the primitive
fails, and `EciesEncrypt` does not succeed: it returns the empty string and
the error "failed to encrypt data: …". -/
theorem EciesEncrypt_can_fail :
    IsKeyPair checksumEcies (ascii "3c") (ascii "c3") ∧
      EciesEncrypt checksumEcies [] (ascii "hello-tss") (ascii "c3") =
        ⟨[], some (Errorf (ascii "failed to encrypt data: ")
          (.errorString (ascii "cannot read random bytes for nonce: EOF"))),
          [.NewPublicKeyFromHex, .Encrypt]⟩ :=
  ⟨⟨by decide, by decide, [0x3c], [.GenerateKey, .Marshal], by decide⟩, by decide⟩

/-- Claim C1, amended, spec-modelled. Round trip: for a collaborator that
meets its serialization and correctness contract, every plaintext `P`, and
every key pair `(sk, pk)` produced by `GenerateKeyPair`, whenever the
encryption step of the primitive returns an envelope, `EciesEncrypt(P, pk)`
succeeds with some text `C` and `EciesDecrypt(C, sk)` succeeds and returns
exactly `P`. -/
theorem EciesDecrypt_EciesEncrypt (E : Ecies) (hHex : HexSerialization E)
    (hOwn : DecryptsOwn E) (sk pk P : GoString) (rnd : E.Entropy) (hkp : IsKeyPair E sk pk)
    (henc : ∀ publicKey, E.NewPublicKeyFromHex pk = .ok publicKey →
      ∃ c, E.Encrypt publicKey P rnd = .ok c) :
    ∃ C, EciesEncrypt E rnd P pk = ⟨C, none, [.NewPublicKeyFromHex, .Encrypt, .EncodeToString]⟩ ∧
      EciesDecrypt E C sk = ⟨P, none, [.NewPrivateKeyFromHex, .DecodeString, .Decrypt]⟩ :=
  roundtrip_of_contract E hHex hOwn sk pk P rnd hkp henc

/-- The round trip of C1 on the checksum scheme, for the key pair generated
from the random byte `0x3c` and the plaintext `"hello-tss"`. -/
theorem EciesDecrypt_EciesEncrypt_witness :
    IsKeyPair checksumEcies (ascii "3c") (ascii "c3") ∧
    ∃ C, EciesEncrypt checksumEcies [9] (ascii "hello-tss") (ascii "c3")
        = ⟨C, none, [.NewPublicKeyFromHex, .Encrypt, .EncodeToString]⟩ ∧
      EciesDecrypt checksumEcies C (ascii "3c")
        = ⟨ascii "hello-tss", none, [.NewPrivateKeyFromHex, .DecodeString, .Decrypt]⟩ :=
  have hkp : IsKeyPair checksumEcies (ascii "3c") (ascii "c3") :=
    ⟨by decide, by decide, [0x3c], [.GenerateKey, .Marshal], by decide⟩
  ⟨hkp, EciesDecrypt_EciesEncrypt checksumEcies checksumEcies_hexSerialization
    checksumEcies_decryptsOwn (ascii "3c") (ascii "c3") (ascii "hello-tss") [9] hkp
    (fun _ _ => ⟨_, rfl⟩)⟩

/-- Claim C4, as stated, fails. For the key pair generated from the random
byte `0x5a` and the empty plaintext, when the random source is exhausted at
the time of the encryption the encryption step of the primitive fails, and
`EciesEncrypt("", pk)` does not succeed: it returns the error "failed to
encrypt data: …". -/
theorem EciesEncrypt_empty_can_fail :
    IsKeyPair checksumEcies (ascii "5a") (ascii "a5") ∧
      EciesEncrypt checksumEcies [] (ascii "") (ascii "a5") =
        ⟨[], some (Errorf (ascii "failed to encrypt data: ")
          (.errorString (ascii "cannot read random bytes for nonce: EOF"))),
          [.NewPublicKeyFromHex, .Encrypt]⟩ :=
  ⟨⟨by decide, by decide, [0x5a], [.GenerateKey, .Marshal], by decide⟩, by decide⟩

/-- Claim C4, amended, spec-modelled. Empty input: for a collaborator that
meets its serialization and correctness contract and every key pair
`(sk, pk)` produced by `GenerateKeyPair`, whenever the encryption step of the
primitive returns an envelope for the empty message, `EciesEncrypt("", pk)`
succeeds and `EciesDecrypt` of its result with `sk` succeeds and returns the
empty string. -/
theorem EciesDecrypt_EciesEncrypt_empty (E : Ecies) (hHex : HexSerialization E)
    (hOwn : DecryptsOwn E) (sk pk : GoString) (rnd : E.Entropy) (hkp : IsKeyPair E sk pk)
    (henc : ∀ publicKey, E.NewPublicKeyFromHex pk = .ok publicKey →
      ∃ c, E.Encrypt publicKey [] rnd = .ok c) :
    ∃ C, EciesEncrypt E rnd [] pk = ⟨C, none, [.NewPublicKeyFromHex, .Encrypt, .EncodeToString]⟩ ∧
      EciesDecrypt E C sk = ⟨[], none, [.NewPrivateKeyFromHex, .DecodeString, .Decrypt]⟩ :=
  roundtrip_of_contract E hHex hOwn sk pk [] rnd hkp henc

/-- The empty round trip of C4 on the checksum scheme. -/
theorem EciesDecrypt_EciesEncrypt_empty_witness :
    IsKeyPair checksumEcies (ascii "5a") (ascii "a5") ∧
    ∃ C, EciesEncrypt checksumEcies [7] (ascii "") (ascii "a5")
        = ⟨C, none, [.NewPublicKeyFromHex, .Encrypt, .EncodeToString]⟩ ∧
      EciesDecrypt checksumEcies C (ascii "5a")
        = ⟨ascii "", none, [.NewPrivateKeyFromHex, .DecodeString, .Decrypt]⟩ :=
  have hkp : IsKeyPair checksumEcies (ascii "5a") (ascii "a5") :=
    ⟨by decide, by decide, [0x5a], [.GenerateKey, .Marshal], by decide⟩
  ⟨hkp, EciesDecrypt_EciesEncrypt_empty checksumEcies checksumEcies_hexSerialization
    checksumEcies_decryptsOwn (ascii "5a") (ascii "a5") [7] hkp (fun _ _ => ⟨_, rfl⟩)⟩

/-- Claim C5. For every plaintext and every `publicKeyHex` that the primitive does
not decode to a public key, `EciesEncrypt` returns the empty string and the
error "failed to decode public key: …" wrapping the primitive's error, and the
only callee invoked is the key decoder: the encryption step is not invoked. -/
theorem EciesEncrypt_invalid_key (E : Ecies) (rnd : E.Entropy) (P publicKeyHex : GoString)
    (e : GoError) (h : E.NewPublicKeyFromHex publicKeyHex = .error e) :
    EciesEncrypt E rnd P publicKeyHex =
        ⟨[], some (Errorf (ascii "failed to decode public key: ") e), [.NewPublicKeyFromHex]⟩ ∧
      Callee.Encrypt ∉ (EciesEncrypt E rnd P publicKeyHex).calls := by
  rw [EciesEncrypt_of_key_error E rnd P publicKeyHex e h]
  exact ⟨rfl, by simp⟩

/-- The case `publicKeyHex = "not-hex"` of C5 on the checksum scheme. -/
theorem EciesEncrypt_invalid_key_witness :
    EciesEncrypt checksumEcies [9] (ascii "hello-tss") (ascii "not-hex") =
        ⟨[], some (Errorf (ascii "failed to decode public key: ")
          (.errorString (ascii "invalid length of key"))), [.NewPublicKeyFromHex]⟩ ∧
      Callee.Encrypt ∉ (EciesEncrypt checksumEcies [9] (ascii "hello-tss") (ascii "not-hex")).calls :=
  EciesEncrypt_invalid_key checksumEcies [9] (ascii "hello-tss") (ascii "not-hex")
    (.errorString (ascii "invalid length of key")) (by decide)

/-- Claim C6. For every private key hex that the primitive decodes and every
ciphertext string that `base64.StdEncoding.DecodeString` rejects,
`EciesDecrypt` returns the empty string and the error "failed to decode
encrypted data: …" wrapping the decoder's error, and the decryption step of
the primitive is not invoked. -/
theorem EciesDecrypt_invalid_base64 (E : Ecies) (encryptedData privateKeyHex : GoString)
    (privateKey : E.PrivateKey) (e : GoError)
    (hk : E.NewPrivateKeyFromHex privateKeyHex = .ok privateKey)
    (hb : (base64.DecodeString encryptedData).2 = some e) :
    EciesDecrypt E encryptedData privateKeyHex =
        ⟨[], some (Errorf (ascii "failed to decode encrypted data: ") e),
          [.NewPrivateKeyFromHex, .DecodeString]⟩ ∧
      Callee.Decrypt ∉ (EciesDecrypt E encryptedData privateKeyHex).calls := by
  rw [EciesDecrypt_of_base64_error E encryptedData privateKeyHex privateKey e hk hb]
  exact ⟨rfl, by simp⟩

/-- The case `encryptedData = "not-base64!"` of C6 on the checksum scheme:
the decoder stops at the `'-'` at index 3. -/
theorem EciesDecrypt_invalid_base64_witness :
    (base64.DecodeString (ascii "not-base64!")).2 = some (.corruptInputError 3) ∧
      EciesDecrypt checksumEcies (ascii "not-base64!") (ascii "3c") =
        ⟨[], some (Errorf (ascii "failed to decode encrypted data: ") (.corruptInputError 3)),
          [.NewPrivateKeyFromHex, .DecodeString]⟩ ∧
      Callee.Decrypt ∉ (EciesDecrypt checksumEcies (ascii "not-base64!") (ascii "3c")).calls :=
  ⟨by decide, EciesDecrypt_invalid_base64 checksumEcies (ascii "not-base64!") (ascii "3c")
    (0x3c : Byte) (.corruptInputError 3) (by decide) (by decide)⟩

/-- Claim C7. For every `privateKeyHex` that the primitive does not decode and every
ciphertext string whatsoever, `EciesDecrypt` returns the empty string and the
error "failed to decode private key: …" wrapping the primitive's error; the
key decoder is the only callee invoked, so neither the base64 decoder nor the
decryption step is reached. -/
theorem EciesDecrypt_invalid_key (E : Ecies) (encryptedData privateKeyHex : GoString)
    (e : GoError) (h : E.NewPrivateKeyFromHex privateKeyHex = .error e) :
    EciesDecrypt E encryptedData privateKeyHex =
      ⟨[], some (Errorf (ascii "failed to decode private key: ") e),
        [.NewPrivateKeyFromHex]⟩ :=
  EciesDecrypt_of_key_error E encryptedData privateKeyHex e h

/-- The case of C7 on the checksum scheme with a key that is not hexadecimal
and a ciphertext that is not base64. -/
theorem EciesDecrypt_invalid_key_witness :
    (base64.DecodeString (ascii "not-base64!")).2 ≠ none ∧
      EciesDecrypt checksumEcies (ascii "not-base64!") (ascii "zz") =
        ⟨[], some (Errorf (ascii "failed to decode private key: ")
          (.errorString (ascii "cannot decode hex string: invalid byte"))),
          [.NewPrivateKeyFromHex]⟩ :=
  ⟨by decide, EciesDecrypt_invalid_key checksumEcies (ascii "not-base64!") (ascii "zz")
    (.errorString (ascii "cannot decode hex string: invalid byte")) (by decide)⟩

/-- Claim C8. Whenever key generation succeeds and the two keys serialize to
hexadecimal strings, `GenerateKeyPair` returns no error and the text
`{"privateKey":"<hex>","publicKey":"<hex>"}`, whose first value is `Hex()` of
the generated private key and whose second value is `Hex(true)` of the public
key of that same private key; the text reads as a JSON object with exactly
the two members `privateKey` and `publicKey`, in this order. -/
theorem GenerateKeyPair_text (E : Ecies) (rnd : E.Entropy) (privKey : E.PrivateKey)
    (h : E.GenerateKey rnd = .ok privKey)
    (h1 : isHex (E.PrivateKeyHex privKey) = true)
    (h2 : isHex (E.PublicKeyHex (E.PublicKeyOf privKey) true) = true) :
    GenerateKeyPair E rnd =
        ⟨ascii "\x7b\"privateKey\":\"" ++ E.PrivateKeyHex privKey ++ ascii "\",\"publicKey\":\""
            ++ E.PublicKeyHex (E.PublicKeyOf privKey) true ++ ascii "\"\x7d",
          none, [.GenerateKey, .Marshal]⟩ ∧
      readObject (GenerateKeyPair E rnd).val =
        some [(ascii "privateKey", E.PrivateKeyHex privKey),
          (ascii "publicKey", E.PublicKeyHex (E.PublicKeyOf privKey) true)] := by
  rw [GenerateKeyPair_of_ok E rnd privKey h h1 h2]
  exact ⟨rfl, readObject_keyPairText _ _ h1 h2⟩

/-- The case of C8 on the checksum scheme with the random byte `0x3c`. -/
theorem GenerateKeyPair_text_witness :
    GenerateKeyPair checksumEcies [0x3c] =
        ⟨ascii "\x7b\"privateKey\":\"3c\",\"publicKey\":\"c3\"\x7d", none,
          [.GenerateKey, .Marshal]⟩ ∧
      readObject (GenerateKeyPair checksumEcies [0x3c]).val =
        some [(ascii "privateKey", ascii "3c"), (ascii "publicKey", ascii "c3")] :=
  GenerateKeyPair_text checksumEcies [0x3c] (0x3c : Byte) (by decide) (by decide) (by decide)

/-- Claim C9, spec-modelled. Tamper detection: for a collaborator that meets its
serialization contract and rejects tampered envelopes, every key pair
`(sk, pk)` produced by `GenerateKeyPair`, every text `C` returned without
error by `EciesEncrypt(P, pk)` and every text `C'` whose base64 decoding is
that of `C` with one bit inverted, `EciesDecrypt(C', sk)` returns the empty
string and the error "failed to decrypt data: …". -/
theorem EciesDecrypt_tampered (E : Ecies) (hHex : HexSerialization E)
    (hTamper : RejectsTampered E) (sk pk P : GoString) (rnd : E.Entropy)
    (hkp : IsKeyPair E sk pk) (C C' : GoString) (calls : List Callee) (i j : Nat)
    (hC : EciesEncrypt E rnd P pk = ⟨C, none, calls⟩)
    (hi : i < (base64.DecodeString C).1.length) (hj : j < 8)
    (hC' : base64.DecodeString C' = (flipBitAt (base64.DecodeString C).1 i j, none)) :
    ∃ e, EciesDecrypt E C' sk =
      ⟨[], some (Errorf (ascii "failed to decrypt data: ") e),
        [.NewPrivateKeyFromHex, .DecodeString, .Decrypt]⟩ := by
  obtain ⟨privKey, hsk, hpk⟩ := hkp.privKey hHex
  have hpub : E.NewPublicKeyFromHex pk = .ok (E.PublicKeyOf privKey) := by
    rw [hpk]; exact hHex.publicKey _
  have hpriv : E.NewPrivateKeyFromHex sk = .ok privKey := by
    rw [hsk]; exact hHex.privateKey _
  obtain ⟨c, hc, hCc⟩ := EciesEncrypt_success E rnd P pk _ C calls hpub hC
  rw [hCc, base64.DecodeString_EncodeToString] at hi hC'
  obtain ⟨e, he⟩ := hTamper privKey P rnd c i j hc hi hj
  exact ⟨e, EciesDecrypt_of_decrypt_error E C' sk privKey _ e hpriv hC' he⟩

/-- The case of C9 on the checksum scheme: the envelope of `"hello-tss"` with
the lowest bit of its byte 4 inverted. -/
theorem EciesDecrypt_tampered_witness :
    EciesEncrypt checksumEcies [9] (ascii "hello-tss") (ascii "c3")
        = ⟨ascii "CWhlbGxvLXRzc5k=", none, [.NewPublicKeyFromHex, .Encrypt, .EncodeToString]⟩ ∧
      base64.DecodeString (ascii "CWhlbG1vLXRzc5k=")
        = (flipBitAt (base64.DecodeString (ascii "CWhlbGxvLXRzc5k=")).1 4 0, none) ∧
      ∃ e, EciesDecrypt checksumEcies (ascii "CWhlbG1vLXRzc5k=") (ascii "3c") =
        ⟨[], some (Errorf (ascii "failed to decrypt data: ") e),
          [.NewPrivateKeyFromHex, .DecodeString, .Decrypt]⟩ :=
  ⟨by decide, by decide,
    EciesDecrypt_tampered checksumEcies checksumEcies_hexSerialization
      checksumEcies_rejectsTampered (ascii "3c") (ascii "c3") (ascii "hello-tss") [9]
      ⟨by decide, by decide, [0x3c], [.GenerateKey, .Marshal], by decide⟩
      (ascii "CWhlbGxvLXRzc5k=") (ascii "CWhlbG1vLXRzc5k=")
      [.NewPublicKeyFromHex, .Encrypt, .EncodeToString] 4 0 (by decide) (by decide)
      (by decide) (by decide)⟩

/-- Claim C10, spec-modelled. Cross-key failure: for a collaborator that meets its
serialization contract and rejects envelopes made for another key, every
plaintext `P` and every two distinct key pairs `(sk1, pk1)`, `(sk2, pk2)`
produced by `GenerateKeyPair`, `EciesDecrypt` of a text returned without error
by `EciesEncrypt(P, pk1)`, with `sk2`, returns the empty string and the error
"failed to decrypt data: …". -/
theorem EciesDecrypt_other_key (E : Ecies) (hHex : HexSerialization E)
    (hOther : RejectsOtherKey E) (sk1 pk1 sk2 pk2 P : GoString) (rnd : E.Entropy)
    (hkp1 : IsKeyPair E sk1 pk1) (hkp2 : IsKeyPair E sk2 pk2)
    (hne : (sk1, pk1) ≠ (sk2, pk2)) (C : GoString) (calls : List Callee)
    (hC : EciesEncrypt E rnd P pk1 = ⟨C, none, calls⟩) :
    ∃ e, EciesDecrypt E C sk2 =
      ⟨[], some (Errorf (ascii "failed to decrypt data: ") e),
        [.NewPrivateKeyFromHex, .DecodeString, .Decrypt]⟩ := by
  obtain ⟨privKey1, hsk1, hpk1⟩ := hkp1.privKey hHex
  obtain ⟨privKey2, hsk2, hpk2⟩ := hkp2.privKey hHex
  have hkeys : privKey1 ≠ privKey2 := by
    intro h
    apply hne
    rw [hsk1, hpk1, hsk2, hpk2, h]
  have hpub : E.NewPublicKeyFromHex pk1 = .ok (E.PublicKeyOf privKey1) := by
    rw [hpk1]; exact hHex.publicKey _
  have hpriv : E.NewPrivateKeyFromHex sk2 = .ok privKey2 := by
    rw [hsk2]; exact hHex.privateKey _
  obtain ⟨c, hc, hCc⟩ := EciesEncrypt_success E rnd P pk1 _ C calls hpub hC
  obtain ⟨e, he⟩ := hOther privKey1 privKey2 P rnd c hkeys hc
  refine ⟨e, EciesDecrypt_of_decrypt_error E C sk2 privKey2 c e hpriv ?_ he⟩
  rw [hCc, base64.DecodeString_EncodeToString]

/-- The case of C10 on the checksum scheme: `"hello-tss"` encrypted to the
public key `c3` and decrypted with the private key `5a` of another pair. -/
theorem EciesDecrypt_other_key_witness :
    EciesEncrypt checksumEcies [9] (ascii "hello-tss") (ascii "c3")
        = ⟨ascii "CWhlbGxvLXRzc5k=", none, [.NewPublicKeyFromHex, .Encrypt, .EncodeToString]⟩ ∧
      ∃ e, EciesDecrypt checksumEcies (ascii "CWhlbGxvLXRzc5k=") (ascii "5a") =
        ⟨[], some (Errorf (ascii "failed to decrypt data: ") e),
          [.NewPrivateKeyFromHex, .DecodeString, .Decrypt]⟩ :=
  ⟨by decide,
    EciesDecrypt_other_key checksumEcies checksumEcies_hexSerialization
      checksumEcies_rejectsOtherKey (ascii "3c") (ascii "c3") (ascii "5a") (ascii "a5")
      (ascii "hello-tss") [9]
      ⟨by decide, by decide, [0x3c], [.GenerateKey, .Marshal], by decide⟩
      ⟨by decide, by decide, [0x5a], [.GenerateKey, .Marshal], by decide⟩
      (by decide) (ascii "CWhlbGxvLXRzc5k=") [.NewPublicKeyFromHex, .Encrypt, .EncodeToString]
      (by decide)⟩

/-- Claim C2, as stated, fails. With the private key `3c`, the text `"AA=="`
decodes to a single byte, which no decryption accepts as an envelope, and
`pointEnvelopeText` decodes to 98 bytes that start with a curve point and end
in a zero tag. Both are valid base64 and both are refused by the primitive,
the first for its length and the second at the authentication step, and
`EciesDecrypt` returns two different errors, each carrying the reason the
primitive reported. -/
theorem EciesDecrypt_failure_not_generic :
    checksumEcies.NewPrivateKeyFromHex (ascii "3c") = .ok (0x3c : Byte) ∧
      base64.DecodeString (ascii "AA==") = ([0], none) ∧
      (base64.DecodeString pointEnvelopeText).2 = none ∧
      (base64.DecodeString pointEnvelopeText).1.length = 98 ∧
      (EciesDecrypt checksumEcies (ascii "AA==") (ascii "3c")).err
        ≠ (EciesDecrypt checksumEcies pointEnvelopeText (ascii "3c")).err ∧
      ((EciesDecrypt checksumEcies (ascii "AA==") (ascii "3c")).err.map GoError.Error)
        = some (ascii "failed to decrypt data: invalid length of message") ∧
      ((EciesDecrypt checksumEcies pointEnvelopeText (ascii "3c")).err.map GoError.Error)
        = some (ascii ("failed to decrypt data: cannot decrypt ciphertext: " ++
            "cipher: message authentication failed")) := by
  decide

/-- Claim C2, amended. For a decoded private key and two base64-decodable texts on
which the decryption step of the primitive fails, `EciesDecrypt` returns the
empty string and, for each, the error "failed to decrypt data: …" that wraps
the error the primitive reported; the two errors returned are equal exactly
when the primitive reported the same error. -/
theorem EciesDecrypt_failure_wraps (E : Ecies) (privateKeyHex C1 C2 : GoString)
    (privateKey : E.PrivateKey) (c1 c2 : List Byte) (e1 e2 : GoError)
    (hk : E.NewPrivateKeyFromHex privateKeyHex = .ok privateKey)
    (h1 : base64.DecodeString C1 = (c1, none)) (h2 : base64.DecodeString C2 = (c2, none))
    (hd1 : E.Decrypt privateKey c1 = .error e1) (hd2 : E.Decrypt privateKey c2 = .error e2) :
    EciesDecrypt E C1 privateKeyHex =
        ⟨[], some (Errorf (ascii "failed to decrypt data: ") e1),
          [.NewPrivateKeyFromHex, .DecodeString, .Decrypt]⟩ ∧
      EciesDecrypt E C2 privateKeyHex =
        ⟨[], some (Errorf (ascii "failed to decrypt data: ") e2),
          [.NewPrivateKeyFromHex, .DecodeString, .Decrypt]⟩ ∧
      ((EciesDecrypt E C1 privateKeyHex).err = (EciesDecrypt E C2 privateKeyHex).err ↔
        e1 = e2) := by
  rw [EciesDecrypt_of_decrypt_error E C1 privateKeyHex privateKey c1 e1 hk h1 hd1,
    EciesDecrypt_of_decrypt_error E C2 privateKeyHex privateKey c2 e2 hk h2 hd2]
  refine ⟨rfl, rfl, ?_⟩
  constructor
  · intro h
    simp only [Errorf, Option.some.injEq, GoError.wrapError.injEq] at h
    exact h.2
  · intro h
    rw [h]

/-- The case of the amended C2 on the checksum scheme, with the two texts of
the counterexample. -/
theorem EciesDecrypt_failure_wraps_witness :
    EciesDecrypt checksumEcies (ascii "AA==") (ascii "3c") =
        ⟨[], some (Errorf (ascii "failed to decrypt data: ")
          (.errorString (ascii "invalid length of message"))),
          [.NewPrivateKeyFromHex, .DecodeString, .Decrypt]⟩ ∧
      EciesDecrypt checksumEcies pointEnvelopeText (ascii "3c") =
        ⟨[], some (Errorf (ascii "failed to decrypt data: ")
          (Errorf (ascii "cannot decrypt ciphertext: ")
            (.errorString (ascii "cipher: message authentication failed")))),
          [.NewPrivateKeyFromHex, .DecodeString, .Decrypt]⟩ ∧
      ((EciesDecrypt checksumEcies (ascii "AA==") (ascii "3c")).err
          = (EciesDecrypt checksumEcies pointEnvelopeText (ascii "3c")).err ↔
        GoError.errorString (ascii "invalid length of message")
          = Errorf (ascii "cannot decrypt ciphertext: ")
            (.errorString (ascii "cipher: message authentication failed"))) :=
  EciesDecrypt_failure_wraps checksumEcies (ascii "3c") (ascii "AA==") pointEnvelopeText
    (0x3c : Byte) [0] (base64.DecodeString pointEnvelopeText).1 _ _
    (by decide) (by decide) (by decide) (by decide) (by decide)

/-- Claim C3, the failing path. When `eciesgo.GenerateKey` fails, `GenerateKeyPair`
returns the collaborator's error itself: no text of `cipher.go` is put in
front of its message and it is not wrapped. -/
theorem GenerateKeyPair_error_unwrapped (E : Ecies) (rnd : E.Entropy) (e : GoError)
    (h : E.GenerateKey rnd = .error e) :
    GenerateKeyPair E rnd = ⟨[], some e, [.GenerateKey]⟩ :=
  GenerateKeyPair_of_error E rnd e h

/-- The failing path of C3 on the checksum scheme with an exhausted random
source: the error returned is the primitive's own `errorString`, whose
`Unwrap` is nil. -/
theorem GenerateKeyPair_error_unwrapped_witness :
    GenerateKeyPair checksumEcies [] =
        ⟨[], some (.errorString (ascii "cannot generate key pair: EOF")), [.GenerateKey]⟩ ∧
      (GenerateKeyPair checksumEcies []).err.map GoError.Unwrap = some none :=
  ⟨GenerateKeyPair_error_unwrapped checksumEcies []
    (.errorString (ascii "cannot generate key pair: EOF")) (by decide), by decide⟩

/-- A ciphertext string that contains a byte outside the base64 alphabet, the
line breaks and the padding character is refused at the decoding stage,
whatever else it contains. -/
theorem EciesDecrypt_foreign_byte (E : Ecies) (encryptedData privateKeyHex : GoString)
    (privateKey : E.PrivateKey) (x : Byte)
    (hk : E.NewPrivateKeyFromHex privateKeyHex = .ok privateKey)
    (hx : base64.decodeMap x = 0xff) (h10 : x ≠ 10) (h13 : x ≠ 13) (hpad : x ≠ base64.padChar)
    (h : x ∈ encryptedData) :
    ∃ e, EciesDecrypt E encryptedData privateKeyHex =
      ⟨[], some (Errorf (ascii "failed to decode encrypted data: ") e),
        [.NewPrivateKeyFromHex, .DecodeString]⟩ := by
  have hne := base64.DecodeString_foreign encryptedData x hx h10 h13 hpad h
  cases he : (base64.DecodeString encryptedData).2 with
  | none => exact absurd he hne
  | some e => exact ⟨e, EciesDecrypt_of_base64_error E _ _ privateKey e hk he⟩

/-- The message of an error built by `Errorf` is the text followed by the
message of the cause, and `Unwrap` returns the cause. -/
theorem Error_Errorf (text : GoString) (err : GoError) :
    (Errorf text err).Error = text ++ err.Error ∧ (Errorf text err).Unwrap = some err :=
  ⟨rfl, rfl⟩

/-- Every other failing path of the three entry points returns an error built
by `fmt.Errorf`, with the text of its stage in front of the cause; an error of
`GenerateKeyPair` is either such an error or the error of `GenerateKey`
itself. -/
theorem errors_wrapped_elsewhere (E : Ecies) (rnd : E.Entropy) (a b : GoString) (e : GoError) :
    ((GenerateKeyPair E rnd).err = some e →
      E.GenerateKey rnd = .error e ∨
        ∃ cause, e = Errorf (ascii "failed to marshal key pair to JSON: ") cause) ∧
    ((EciesEncrypt E rnd a b).err = some e →
      ∃ cause, e = Errorf (ascii "failed to decode public key: ") cause ∨
        e = Errorf (ascii "failed to encrypt data: ") cause) ∧
    ((EciesDecrypt E a b).err = some e →
      ∃ cause, e = Errorf (ascii "failed to decode private key: ") cause ∨
        e = Errorf (ascii "failed to decode encrypted data: ") cause ∨
        e = Errorf (ascii "failed to decrypt data: ") cause) := by
  refine ⟨?_, ?_, ?_⟩
  · intro h
    unfold GenerateKeyPair at h
    split at h
    · rename_i err hk
      rw [hk, ← Option.some.inj h]
      exact Or.inl rfl
    · simp only [json.Marshal] at h
      simp at h
  · intro h
    unfold EciesEncrypt at h
    split at h
    · exact ⟨_, Or.inl (Option.some.inj h).symm⟩
    · split at h
      · exact ⟨_, Or.inr (Option.some.inj h).symm⟩
      · simp at h
  · intro h
    unfold EciesDecrypt at h
    split at h
    · exact ⟨_, Or.inl (Option.some.inj h).symm⟩
    · split at h
      · exact ⟨_, Or.inr (Or.inl (Option.some.inj h).symm)⟩
      · split at h
        · exact ⟨_, Or.inr (Or.inr (Option.some.inj h).symm)⟩
        · simp at h


end Tss


